import Mathlib

/-!
Verification of the AES-GCM vs ChaCha20-Poly1305 file-encryption benchmark
(`benchmark.py`). Bytes are naturals kept below 256, byte strings are
`List ℕ`, Python floats (timings, megabyte sizes) are modelled as `ℚ`.

The script delegates the two AEAD primitives to the `cryptography` package
and its aggregation to `pandas`; neither library's code is part of the
repository, so those collaborators are modelled here: the AEAD primitives
as the algorithms the library implements (ChaCha20-Poly1305 per RFC 8439,
AES-256-GCM per NIST SP 800-38D, both validated against the published test
vectors), and the pandas aggregation per its documented semantics.
Randomness (`secrets.token_bytes`) is modelled by passing the drawn bytes
as explicit parameters, and wall/CPU clock readings by explicit clock
samples taken at the points where the script calls `time.perf_counter`
and `time.process_time`.
-/

/- ---------------------------------------------------------------- -/
/- ChaCha20-Poly1305 (RFC 8439), modelling `ChaCha20Poly1305` of the
   `cryptography` package.                                          -/
/- ---------------------------------------------------------------- -/

def mask32 (n : ℕ) : ℕ := n % 4294967296

def rotl32 (x n : ℕ) : ℕ := mask32 ((x <<< n) ||| (x >>> (32 - n)))

/-- One ChaCha quarter round acting on state positions `i0 i1 i2 i3`. -/
def quarterRound (x : List ℕ) (i0 i1 i2 i3 : ℕ) : List ℕ :=
  let a := x.getD i0 0
  let b := x.getD i1 0
  let c := x.getD i2 0
  let d := x.getD i3 0
  let a := mask32 (a + b)
  let d := rotl32 (Nat.xor d a) 16
  let c := mask32 (c + d)
  let b := rotl32 (Nat.xor b c) 12
  let a := mask32 (a + b)
  let d := rotl32 (Nat.xor d a) 8
  let c := mask32 (c + d)
  let b := rotl32 (Nat.xor b c) 7
  (((x.set i0 a).set i1 b).set i2 c).set i3 d

/-- One ChaCha double round: four column rounds then four diagonal rounds. -/
def innerBlock (s : List ℕ) : List ℕ :=
  let s := quarterRound s 0 4 8 12
  let s := quarterRound s 1 5 9 13
  let s := quarterRound s 2 6 10 14
  let s := quarterRound s 3 7 11 15
  let s := quarterRound s 0 5 10 15
  let s := quarterRound s 1 6 11 12
  let s := quarterRound s 2 7 8 13
  quarterRound s 3 4 9 14

def chachaRounds (s : List ℕ) : List ℕ := innerBlock^[10] s

/-- Little-endian 32-bit words from bytes. -/
def bytesToWordsLE : List ℕ → List ℕ
  | b0 :: b1 :: b2 :: b3 :: rest =>
      (b0 + 256 * b1 + 65536 * b2 + 16777216 * b3) :: bytesToWordsLE rest
  | [] => []
  | [b0] => [b0]
  | [b0, b1] => [b0 + 256 * b1]
  | [b0, b1, b2] => [b0 + 256 * b1 + 65536 * b2]

def wordToBytesLE (w : ℕ) : List ℕ :=
  [w % 256, w / 256 % 256, w / 65536 % 256, w / 16777216 % 256]

def chachaInit (key nonce : List ℕ) (counter : ℕ) : List ℕ :=
  [0x61707865, 0x3320646e, 0x79622d32, 0x6b206574] ++
    bytesToWordsLE key ++ [counter] ++ bytesToWordsLE nonce

/-- The ChaCha20 block function: 64 bytes of keystream. -/
def chachaBlock (key nonce : List ℕ) (counter : ℕ) : List ℕ :=
  let init := chachaInit key nonce counter
  ((List.zipWith (fun a b => mask32 (a + b)) (chachaRounds init) init).map
    wordToBytesLE).flatten

/-- ChaCha20 keystream of `len` bytes starting at block `counter`. -/
def chachaKeystream (key nonce : List ℕ) (counter len : ℕ) : List ℕ :=
  (((List.range ((len + 63) / 64)).map
    (fun i => chachaBlock key nonce (counter + i))).flatten).take len

def leNum (l : List ℕ) : ℕ := l.foldr (fun b acc => b + 256 * acc) 0

def leBytes (n x : ℕ) : List ℕ := (List.range n).map (fun i => x / 256 ^ i % 256)

def chunks16 : List ℕ → List (List ℕ)
  | [] => []
  | a :: l => ((a :: l).take 16) :: chunks16 ((a :: l).drop 16)
  termination_by l => l.length
  decreasing_by simp [List.length_drop]; omega

/-- Poly1305 one-time authenticator (RFC 8439, section 2.5). -/
def poly1305 (key msg : List ℕ) : List ℕ :=
  let r := leNum (key.take 16) &&& 0x0ffffffc0ffffffc0ffffffc0fffffff
  let s := leNum ((key.drop 16).take 16)
  let p := 2 ^ 130 - 5
  let acc := (chunks16 msg).foldl
    (fun acc c => ((acc + (leNum c + 2 ^ (8 * c.length))) * r) % p) 0
  leBytes 16 ((acc + s) % 2 ^ 128)

def pad16 (l : List ℕ) : List ℕ := List.replicate ((16 - l.length % 16) % 16) 0

def chachaMacData (aad ct : List ℕ) : List ℕ :=
  aad ++ pad16 aad ++ ct ++ pad16 ct ++ leBytes 8 aad.length ++ leBytes 8 ct.length

/-- The Poly1305 tag of an RFC 8439 AEAD message, keyed from ChaCha block 0. -/
def chachaTag (key nonce aad ct : List ℕ) : List ℕ :=
  poly1305 ((chachaBlock key nonce 0).take 32) (chachaMacData aad ct)

/-- Modelled from the spec: the `ChaCha20Poly1305.encrypt` primitive of the
`cryptography` package, absent from `src/`, per RFC 8439: ciphertext is the
plaintext XORed with the ChaCha20 keystream (counter 1), followed by the
16-byte Poly1305 tag. Validated against the RFC 8439 test vectors. -/
def chacha20poly1305Encrypt (key nonce pt aad : List ℕ) : List ℕ :=
  let ct := List.zipWith Nat.xor pt (chachaKeystream key nonce 1 pt.length)
  ct ++ chachaTag key nonce aad ct

/-- Modelled from the spec: the `ChaCha20Poly1305.decrypt` primitive of the
`cryptography` package, absent from `src/`, per RFC 8439: recompute the tag
over the received ciphertext, reject on mismatch, otherwise XOR the
keystream back off. -/
def chacha20poly1305Decrypt (key nonce data aad : List ℕ) : Option (List ℕ) :=
  if data.length < 16 then none
  else
    if chachaTag key nonce aad (data.take (data.length - 16)) =
        data.drop (data.length - 16) then
      some (List.zipWith Nat.xor (data.take (data.length - 16))
        (chachaKeystream key nonce 1 (data.take (data.length - 16)).length))
    else none

/- ---------------------------------------------------------------- -/
/- AES-256-GCM (FIPS 197, NIST SP 800-38D), modelling `AESGCM` of the
   `cryptography` package.                                          -/
/- ---------------------------------------------------------------- -/

/-- Multiplication by `x` in GF(2^8) with the AES reduction polynomial. -/
def xtime (b : ℕ) : ℕ := if b < 128 then 2 * b else Nat.xor (2 * b) 0x11b

/-- GF(2^8) product by peasant multiplication. -/
def gmul (a b : ℕ) : ℕ :=
  ((List.range 8).foldl
    (fun s _ =>
      (if s.2.2 % 2 = 1 then Nat.xor s.1 s.2.1 else s.1, xtime s.2.1, s.2.2 / 2))
    (0, a, b)).1

/-- GF(2^8) power, used to compute the multiplicative inverse as `b ^ 254`. -/
def gpow (a n : ℕ) : ℕ := (List.range n).foldl (fun acc _ => gmul acc a) 1

def rotl8 (x n : ℕ) : ℕ := ((x <<< n) ||| (x >>> (8 - n))) &&& 0xff

/-- The AES S-box: multiplicative inverse in GF(2^8) followed by the affine map. -/
def sbox (b : ℕ) : ℕ :=
  let i := gpow b 254
  Nat.xor (Nat.xor (Nat.xor (Nat.xor (Nat.xor i (rotl8 i 1)) (rotl8 i 2))
    (rotl8 i 3)) (rotl8 i 4)) 0x63

def bytesToWordsBE : List ℕ → List ℕ
  | b0 :: b1 :: b2 :: b3 :: rest =>
      (16777216 * b0 + 65536 * b1 + 256 * b2 + b3) :: bytesToWordsBE rest
  | _ => []

def wordToBytesBE (w : ℕ) : List ℕ :=
  [w / 16777216 % 256, w / 65536 % 256, w / 256 % 256, w % 256]

def subWord (w : ℕ) : ℕ :=
  16777216 * sbox (w / 16777216 % 256) + 65536 * sbox (w / 65536 % 256) +
    256 * sbox (w / 256 % 256) + sbox (w % 256)

def rotWord (w : ℕ) : ℕ := mask32 ((w <<< 8) ||| (w >>> 24))

def rconVal : ℕ → ℕ
  | 0 => 0
  | 1 => 1
  | n + 2 => xtime (rconVal (n + 1))

/-- AES-256 key schedule: 60 round-key words from a 32-byte key. -/
def expandKeyWords (key : List ℕ) : List ℕ :=
  (List.range 52).foldl
    (fun ws i =>
      let j := i + 8
      let temp := ws.getD (j - 1) 0
      let temp :=
        if j % 8 = 0 then Nat.xor (subWord (rotWord temp)) (rconVal (j / 8) <<< 24)
        else if j % 8 = 4 then subWord temp
        else temp
      ws ++ [Nat.xor (ws.getD (j - 8) 0) temp])
    (bytesToWordsBE key)

def roundKeyBytes (ws : List ℕ) (round : ℕ) : List ℕ :=
  ((List.range 4).map (fun c => wordToBytesBE (ws.getD (4 * round + c) 0))).flatten

def addRoundKey (st ws : List ℕ) (round : ℕ) : List ℕ :=
  List.zipWith Nat.xor st (roundKeyBytes ws round)

def subBytes (st : List ℕ) : List ℕ := st.map sbox

def shiftRows (s : List ℕ) : List ℕ :=
  [s.getD 0 0, s.getD 5 0, s.getD 10 0, s.getD 15 0,
   s.getD 4 0, s.getD 9 0, s.getD 14 0, s.getD 3 0,
   s.getD 8 0, s.getD 13 0, s.getD 2 0, s.getD 7 0,
   s.getD 12 0, s.getD 1 0, s.getD 6 0, s.getD 11 0]

def mixColumn (a : List ℕ) : List ℕ :=
  let a0 := a.getD 0 0
  let a1 := a.getD 1 0
  let a2 := a.getD 2 0
  let a3 := a.getD 3 0
  [Nat.xor (Nat.xor (gmul 2 a0) (gmul 3 a1)) (Nat.xor a2 a3),
   Nat.xor (Nat.xor a0 (gmul 2 a1)) (Nat.xor (gmul 3 a2) a3),
   Nat.xor (Nat.xor a0 a1) (Nat.xor (gmul 2 a2) (gmul 3 a3)),
   Nat.xor (Nat.xor (gmul 3 a0) a1) (Nat.xor a2 (gmul 2 a3))]

def mixColumns (s : List ℕ) : List ℕ :=
  mixColumn (s.take 4) ++ mixColumn ((s.drop 4).take 4) ++
    mixColumn ((s.drop 8).take 4) ++ mixColumn ((s.drop 12).take 4)

/-- AES-256 block encryption (14 rounds); the state is 16 bytes column-major.
Validated against the FIPS 197 appendix C.3 example. -/
def encryptBlock (ws block : List ℕ) : List ℕ :=
  let s0 := addRoundKey block ws 0
  let s1 := (List.range 13).foldl
    (fun st r => addRoundKey (mixColumns (shiftRows (subBytes st))) ws (r + 1)) s0
  addRoundKey (shiftRows (subBytes s1)) ws 14

def beNum (l : List ℕ) : ℕ := l.foldl (fun acc b => acc * 256 + b) 0

def beBytes (n x : ℕ) : List ℕ :=
  (List.range n).map (fun i => x / 256 ^ (n - 1 - i) % 256)

/-- Multiplication in GF(2^128), blocks as naturals, MSB-first bit order. -/
def gf128Mul (x y : ℕ) : ℕ :=
  ((List.range 128).foldl
    (fun zv i =>
      (if (x >>> (127 - i)) % 2 = 1 then Nat.xor zv.1 zv.2 else zv.1,
       if zv.2 % 2 = 1 then Nat.xor (zv.2 / 2) (0xe1 <<< 120) else zv.2 / 2))
    (0, y)).1

/-- GHASH over data whose length is a multiple of 16 bytes. -/
def ghash (h : ℕ) (data : List ℕ) : ℕ :=
  (chunks16 data).foldl (fun y c => gf128Mul (Nat.xor y (beNum c)) h) 0

/-- Increment of the low 32 bits of a 128-bit counter block. -/
def inc32 (x : ℕ) : ℕ :=
  x / 4294967296 * 4294967296 + (x % 4294967296 + 1) % 4294967296

def aesHashKey (ws : List ℕ) : ℕ := beNum (encryptBlock ws (List.replicate 16 0))

/-- The GCM pre-counter block `J0` (96-bit IV case, GHASH otherwise). -/
def gcmJ0 (h : ℕ) (nonce : List ℕ) : ℕ :=
  if nonce.length = 12 then beNum nonce * 4294967296 + 1
  else ghash h (nonce ++ pad16 nonce ++ beBytes 16 (8 * nonce.length))

/-- GCM CTR keystream of `len` bytes starting from `inc32 j0`. -/
def aesCtrKeystream (ws : List ℕ) (j0 len : ℕ) : List ℕ :=
  (((List.range ((len + 15) / 16)).map
    (fun i => encryptBlock ws (beBytes 16 (inc32^[i + 1] j0)))).flatten).take len

def gcmGhashData (aad ct : List ℕ) : List ℕ :=
  aad ++ pad16 aad ++ ct ++ pad16 ct ++
    beBytes 8 (8 * aad.length) ++ beBytes 8 (8 * ct.length)

/-- The GCM authentication tag: `E(K, J0) XOR GHASH(aad, ct)`. -/
def gcmTag (ws : List ℕ) (j0 : ℕ) (aad ct : List ℕ) : List ℕ :=
  beBytes 16 (Nat.xor (beNum (encryptBlock ws (beBytes 16 j0)))
    (ghash (aesHashKey ws) (gcmGhashData aad ct)))

/-- Modelled from the spec: the `AESGCM.encrypt` primitive of the
`cryptography` package, absent from `src/`, per NIST SP 800-38D: CTR-mode
ciphertext followed by the 16-byte tag. Validated against NIST GCM test
cases 13 and 14. -/
def aesgcmEncrypt (key nonce pt aad : List ℕ) : List ℕ :=
  let ws := expandKeyWords key
  let j0 := gcmJ0 (aesHashKey ws) nonce
  let ct := List.zipWith Nat.xor pt (aesCtrKeystream ws j0 pt.length)
  ct ++ gcmTag ws j0 aad ct

/-- Modelled from the spec: the `AESGCM.decrypt` primitive of the
`cryptography` package, absent from `src/`, per NIST SP 800-38D. -/
def aesgcmDecrypt (key nonce data aad : List ℕ) : Option (List ℕ) :=
  if data.length < 16 then none
  else
    let ws := expandKeyWords key
    let j0 := gcmJ0 (aesHashKey ws) nonce
    if gcmTag ws j0 aad (data.take (data.length - 16)) =
        data.drop (data.length - 16) then
      some (List.zipWith Nat.xor (data.take (data.length - 16))
        (aesCtrKeystream ws j0 (data.take (data.length - 16)).length))
    else none

/- ---------------------------------------------------------------- -/
/- The AEAD adapters (`benchmark.py`, lines 54-63). The fresh random
   nonce from `secrets.token_bytes(12)` is passed as a parameter.    -/
/- ---------------------------------------------------------------- -/

/-- Adapter `encrypt_aes_gcm` (lines 54-58): a fresh 12-byte nonce followed
by `AESGCM(key).encrypt(nonce, plaintext, associated_data=None)`. -/
def encrypt_aes_gcm (key nonce plaintext : List ℕ) : List ℕ :=
  nonce ++ aesgcmEncrypt key nonce plaintext []

/-- Adapter `encrypt_chacha` (lines 60-63): a fresh 12-byte nonce followed
by `ChaCha20Poly1305(key).encrypt(nonce, plaintext, associated_data=None)`. -/
def encrypt_chacha (key nonce plaintext : List ℕ) : List ℕ :=
  nonce ++ chacha20poly1305Encrypt key nonce plaintext []

/- ---------------------------------------------------------------- -/
/- The measurement harness (`benchmark.py`, lines 66-241).          -/
/- ---------------------------------------------------------------- -/

/-- The base name of a path, as `pathlib.Path(...).name`: the last
path component — trailing slashes stripped, then the longest suffix free
of separators. -/
def fileName (path : String) : String :=
  ⟨(((path.data.reverse.dropWhile (fun ch => ch = '/')).takeWhile
    (fun ch => ch ≠ '/')).reverse)⟩

/-- An input file as the script sees it: its path and its `stat().st_size`. -/
structure FileInfo where
  path : String
  sizeBytes : ℕ
deriving DecidableEq

/-- Clock samples at the four `time.perf_counter()` calls (before/after the
file read, before/after the adapter call), the two `time.process_time()`
calls bracketing only the adapter call, and the `time.time()` timestamp.
The ciphertext write happens after `encEnd` with no further sample. -/
structure Clocks where
  readStart : ℚ
  readEnd : ℚ
  encStart : ℚ
  encEnd : ℚ
  cpuStart : ℚ
  cpuEnd : ℚ
  tNow : ℚ
deriving DecidableEq

/-- The dict returned by `run_single_encryption` (lines 95-104), plus the
`iter` index that `benchmark` adds at line 134 (0 until then). -/
structure TrialRecord where
  file : String
  filesize_bytes : ℕ
  cipher : String
  wall_time_sec : ℚ
  cpu_time_sec : ℚ
  output_file : String
  timestamp : ℚ
  bytes_processed : ℕ
  iter : ℕ
deriving DecidableEq

/-- File-system effects of one trial. -/
inductive Ev where
  | readFile (path : String)
  | writeFile (path : String) (data : List ℕ)
deriving DecidableEq

/-- Python `cipher_name.replace(' ', '')` — for the single-character space
pattern this is exactly dropping every space. -/
def removeSpaces (s : String) : String := ⟨s.data.filter (fun ch => ch ≠ ' ')⟩

/-- One encryption trial (`run_single_encryption`, lines 66-104): read the
file, dispatch on the cipher name (raising `ValueError` for any other
name, after the read and before any write), encrypt, write the ciphertext
to `outdir / f"{name}.{cipher}.ct"`, and return the metrics dict. The
file's contents, the drawn nonce and the clock samples are parameters. -/
def run_single_encryption (file : FileInfo) (cipher_name : String)
    (key nonce plaintext : List ℕ) (outdir : String) (ck : Clocks) :
    List Ev × Except String TrialRecord :=
  if cipher_name = "AES-GCM" ∨ cipher_name = "ChaCha20-Poly1305" then
    let ciphertext :=
      if cipher_name = "AES-GCM" then encrypt_aes_gcm key nonce plaintext
      else encrypt_chacha key nonce plaintext
    let out_file :=
      outdir ++ "/" ++ fileName file.path ++ "." ++
        removeSpaces cipher_name ++ ".ct"
    ([Ev.readFile file.path, Ev.writeFile out_file ciphertext],
     Except.ok
       { file := file.path
         filesize_bytes := file.sizeBytes
         cipher := cipher_name
         wall_time_sec := (ck.encEnd - ck.encStart) + (ck.readEnd - ck.readStart)
         cpu_time_sec := ck.cpuEnd - ck.cpuStart
         output_file := out_file
         timestamp := ck.tNow
         bytes_processed := plaintext.length
         iter := 0 })
  else ([Ev.readFile file.path], Except.error "Unsupported cipher")

/-- The fixed cipher list of `benchmark` (line 111). -/
def ciphersList : List String := ["AES-GCM", "ChaCha20-Poly1305"]

/-- Key selection at line 132: `key_aes if cipher == "AES-GCM" else key_cha`. -/
def pickKey (cipher : String) (key_aes key_cha : List ℕ) : List ℕ :=
  if cipher = "AES-GCM" then key_aes else key_cha

/-- Everything the script gets from its surroundings during the trial loop:
file contents, the per-trial random nonce and clock samples, whether a given
trial raises an I/O error (caught at line 137), and whether `os.remove` of a
given path fails during cleanup (ignored at lines 213-216). -/
structure Env where
  content : String → List ℕ
  nonce : String → String → ℕ → List ℕ
  clocks : String → String → ℕ → Clocks
  fails : String → String → ℕ → Bool
  removeFails : String → Bool

/-- One invocation of `run_single_encryption` by the trial loop. -/
structure Call where
  file : String
  cipher : String
  key : List ℕ
  iter : ℕ
deriving DecidableEq

/-- The sequence of `run_single_encryption` invocations made by the loop at
lines 122-133: files in order, then the two ciphers, then iterations 1..N,
each passed the per-cipher key chosen at line 132 from the two keys drawn
once before the loop (lines 113-114). -/
def benchmark_calls (files : List FileInfo) (iters : ℕ)
    (key_aes key_cha : List ℕ) : List Call :=
  files.flatMap fun f =>
    ciphersList.flatMap fun c =>
      (List.range iters).map fun j =>
        { file := f.path, cipher := c, key := pickKey c key_aes key_cha,
          iter := j + 1 }

/-- Outcome of one pass of the `try` body at lines 131-135: `none` when the
trial raises (the `except` at line 137 prints and continues), otherwise the
returned metrics with `iter` set. -/
def trialOutcome (env : Env) (f : FileInfo) (c : String) (i : ℕ)
    (key : List ℕ) (outdir : String) : Option TrialRecord :=
  if env.fails f.path c i then none
  else
    match run_single_encryption f c key (env.nonce f.path c i)
        (env.content f.path) outdir (env.clocks f.path c i) with
    | (_, Except.ok r) => some { r with iter := i }
    | (_, Except.error _) => none

/-- The `raw_rows` list accumulated by the loop at lines 122-138. -/
def benchmark_rows (files : List FileInfo) (iters : ℕ) (outdir : String)
    (env : Env) (key_aes key_cha : List ℕ) : List TrialRecord :=
  files.flatMap fun f =>
    ciphersList.flatMap fun c =>
      (List.range iters).filterMap fun j =>
        trialOutcome env f c (j + 1) (pickKey c key_aes key_cha) outdir

/-- The ciphertext files on disk at end of run (lines 209-216): each trial
wrote `r.output_file` (later iterations overwrite earlier ones, so distinct
paths remain); when `keep_outputs` is false the script attempts
`os.remove` on each distinct output path, ignoring failures, so exactly
the paths whose removal fails remain. -/
def benchmark_disk (rows : List TrialRecord) (keep_outputs : Bool)
    (env : Env) : List String :=
  if keep_outputs then (rows.map (·.output_file)).dedup
  else ((rows.map (·.output_file)).dedup).filter fun p => env.removeFails p

/-- The `size_label` bucketing (lines 150-163) applied to one record:
`filesize_MB = filesize_bytes / (1024*1024)` then tolerance windows, with
the file's base name as fallback. -/
def size_label (filesize_bytes : ℕ) (file : String) : String :=
  let size_mb : ℚ := (filesize_bytes : ℚ) / (1024 * 1024)
  if |size_mb - 10| < 1 then "10MB"
  else if |size_mb - 100| < 5 then "100MB"
  else if |size_mb - 500| < 20 then "500MB"
  else if |size_mb - 1024| < 100 then "1GB"
  else fileName file

/-- The wall-time values of one aggregation group: the records grouped
under a `(size_label, cipher)` pair by the `groupby` at line 167. -/
def groupWallTimes (rows : List TrialRecord) (label cipher : String) :
    List ℚ :=
  (rows.filter fun r =>
    size_label r.filesize_bytes r.file == label && r.cipher == cipher).map
    (·.wall_time_sec)

/-- Modelled from the spec: the pandas `"mean"` aggregation (line 169),
absent from `src/` — the arithmetic mean, missing for an empty group. -/
def pdMean (l : List ℚ) : Option ℚ :=
  if l.length = 0 then none else some (l.sum / l.length)

/-- Modelled from the spec: the square of the pandas `"std"` aggregation
(line 170), absent from `src/` — the sample variance with denominator
`n - 1` (ddof = 1), missing (NaN) for a group of fewer than two runs. The
reported standard deviation is its square root. -/
def pdSampleVar (l : List ℚ) : Option ℚ :=
  if l.length < 2 then none
  else some (((l.map fun x => (x - l.sum / l.length) ^ 2).sum) /
    ((l.length : ℚ) - 1))

/-- Observable actions of `main` (lines 230-241) and the head of
`benchmark` (line 108): print a missing path, exit non-zero, create the
output directory, run one trial. -/
inductive Act where
  | printMissing (path : String)
  | exitNonzero
  | mkdirOut (dir : String)
  | runTrial (file cipher : String) (iter : ℕ)
deriving DecidableEq

/-- Action trace of `main` (lines 230-241): validate that every file
exists; if any is missing, print each missing path and exit with status 1
before anything else; otherwise call `benchmark`, whose first action is
creating the output directory (line 108), followed by the trial matrix. -/
def main_model (fileArgs : List String) (iters : ℕ) (outdir : String)
    (fsExists : String → Bool) : List Act :=
  let missing := fileArgs.filter fun f => !(fsExists f)
  if missing.isEmpty then
    Act.mkdirOut outdir ::
      (fileArgs.flatMap fun f =>
        ciphersList.flatMap fun c =>
          (List.range iters).map fun j => Act.runTrial f c (j + 1))
  else (missing.map Act.printMissing) ++ [Act.exitNonzero]

/- ---------------------------------------------------------------- -/
/- Helper lemmas.                                                   -/
/- ---------------------------------------------------------------- -/

theorem zipWith_xor_cancel : ∀ (p k : List ℕ), p.length ≤ k.length →
    List.zipWith Nat.xor (List.zipWith Nat.xor p k) k = p
  | [], _, _ => by simp
  | _ :: _, [], h => by simp at h
  | a :: p, b :: k, h => by
      have ih := zipWith_xor_cancel p k (Nat.le_of_succ_le_succ (by simpa using h))
      simpa [List.zipWith, ih] using Nat.xor_cancel_right b a

theorem flatten_map_length {α : Type} (f : α → List ℕ) (k : ℕ) :
    ∀ l : List α, (∀ x ∈ l, (f x).length = k) →
      ((l.map f).flatten).length = k * l.length
  | [], _ => by simp
  | a :: l, h => by
      have ih := flatten_map_length f k l fun x hx => h x (List.mem_cons_of_mem a hx)
      have ha := h a (List.mem_cons_self a l)
      simp [ih, ha, Nat.mul_succ, Nat.add_comm]

theorem bytesToWordsLE_length : ∀ l : List ℕ,
    (bytesToWordsLE l).length = (l.length + 3) / 4
  | _ :: _ :: _ :: _ :: rest => by
      simp [bytesToWordsLE, bytesToWordsLE_length rest]
      omega
  | [] => by simp [bytesToWordsLE]
  | [_] => by simp [bytesToWordsLE]
  | [_, _] => by simp [bytesToWordsLE]
  | [_, _, _] => by simp [bytesToWordsLE]

theorem wordToBytesLE_length (w : ℕ) : (wordToBytesLE w).length = 4 := rfl

theorem wordToBytesBE_length (w : ℕ) : (wordToBytesBE w).length = 4 := rfl

theorem quarterRound_length (x : List ℕ) (i0 i1 i2 i3 : ℕ) :
    (quarterRound x i0 i1 i2 i3).length = x.length := by
  simp [quarterRound]

theorem innerBlock_length (s : List ℕ) : (innerBlock s).length = s.length := by
  simp [innerBlock, quarterRound_length]

theorem chachaRounds_length (s : List ℕ) :
    (chachaRounds s).length = s.length := by
  show (innerBlock^[10] s).length = s.length
  have h : ∀ (n : ℕ) (t : List ℕ), (innerBlock^[n] t).length = t.length := by
    intro n
    induction n with
    | zero => intro t; rfl
    | succ m ih =>
        intro t
        rw [Function.iterate_succ_apply, ih, innerBlock_length]
  exact h 10 s

theorem chachaInit_length {key nonce : List ℕ} (c : ℕ)
    (hk : key.length = 32) (hn : nonce.length = 12) :
    (chachaInit key nonce c).length = 16 := by
  simp [chachaInit, bytesToWordsLE_length, hk, hn]

theorem chachaBlock_length {key nonce : List ℕ} (c : ℕ)
    (hk : key.length = 32) (hn : nonce.length = 12) :
    (chachaBlock key nonce c).length = 64 := by
  rw [chachaBlock]
  rw [flatten_map_length wordToBytesLE 4 _ (fun x _ => wordToBytesLE_length x)]
  rw [List.length_zipWith, chachaRounds_length, chachaInit_length c hk hn]
  simp

theorem chachaKeystream_length {key nonce : List ℕ} (c len : ℕ)
    (hk : key.length = 32) (hn : nonce.length = 12) :
    (chachaKeystream key nonce c len).length = len := by
  rw [chachaKeystream, List.length_take]
  rw [flatten_map_length (fun i => chachaBlock key nonce (c + i)) 64 _
    (fun x _ => chachaBlock_length _ hk hn)]
  simp only [List.length_range]
  have h1 := Nat.div_add_mod (len + 63) 64
  have h2 : (len + 63) % 64 < 64 := Nat.mod_lt _ (by omega)
  omega

theorem leBytes_length (n x : ℕ) : (leBytes n x).length = n := by
  simp [leBytes]

theorem beBytes_length (n x : ℕ) : (beBytes n x).length = n := by
  simp [beBytes]

theorem poly1305_length (key msg : List ℕ) : (poly1305 key msg).length = 16 := by
  simp [poly1305, leBytes_length]

theorem chachaTag_length (key nonce aad ct : List ℕ) :
    (chachaTag key nonce aad ct).length = 16 := by
  simp [chachaTag, poly1305_length]

theorem roundKeyBytes_length (ws : List ℕ) (round : ℕ) :
    (roundKeyBytes ws round).length = 16 := by
  rw [roundKeyBytes,
    flatten_map_length _ 4 _ (fun x _ => wordToBytesBE_length _)]
  simp

theorem shiftRows_length (s : List ℕ) : (shiftRows s).length = 16 := rfl

theorem encryptBlock_length (ws block : List ℕ) :
    (encryptBlock ws block).length = 16 := by
  rw [encryptBlock]
  simp [addRoundKey, List.length_zipWith, roundKeyBytes_length, shiftRows_length,
    subBytes]

theorem aesCtrKeystream_length (ws : List ℕ) (j0 len : ℕ) :
    (aesCtrKeystream ws j0 len).length = len := by
  rw [aesCtrKeystream, List.length_take]
  rw [flatten_map_length _ 16 _ (fun x _ => encryptBlock_length ws _)]
  simp only [List.length_range]
  have h1 := Nat.div_add_mod (len + 15) 16
  have h2 : (len + 15) % 16 < 16 := Nat.mod_lt _ (by omega)
  omega

theorem gcmTag_length (ws : List ℕ) (j0 : ℕ) (aad ct : List ℕ) :
    (gcmTag ws j0 aad ct).length = 16 := by
  simp [gcmTag, beBytes_length]

/-- Round trip of a generic stream-cipher AEAD of the shape shared by
GCM and ChaCha20-Poly1305: keystream XOR followed by a 16-byte tag of the
ciphertext, checked again on decryption. -/
theorem aead_roundtrip_aux (ks : ℕ → List ℕ) (tagOf : List ℕ → List ℕ)
    (pt : List ℕ) (hks : ∀ n, (ks n).length = n)
    (htag : ∀ ct, (tagOf ct).length = 16) :
    (let ct := List.zipWith Nat.xor pt (ks pt.length)
     let data := ct ++ tagOf ct
     if data.length < 16 then none
     else if tagOf (data.take (data.length - 16)) =
         data.drop (data.length - 16) then
       some (List.zipWith Nat.xor (data.take (data.length - 16))
         (ks (data.take (data.length - 16)).length))
     else none) = some pt := by
  have hct : (List.zipWith Nat.xor pt (ks pt.length)).length = pt.length := by
    rw [List.length_zipWith, hks]
    simp
  set ct := List.zipWith Nat.xor pt (ks pt.length) with hctdef
  have hlen : (ct ++ tagOf ct).length = pt.length + 16 := by
    rw [List.length_append, hct, htag]
  have hsub : (ct ++ tagOf ct).length - 16 = ct.length := by
    rw [hlen, hct]
    omega
  have htake : (ct ++ tagOf ct).take ((ct ++ tagOf ct).length - 16) = ct := by
    rw [hsub]
    exact List.take_left' rfl
  have hdrop : (ct ++ tagOf ct).drop ((ct ++ tagOf ct).length - 16) = tagOf ct := by
    rw [hsub]
    exact List.drop_left' rfl
  simp only []
  rw [if_neg (by omega), htake, hdrop, if_pos rfl, hct, hctdef]
  rw [zipWith_xor_cancel pt (ks pt.length) (by rw [hks])]

theorem chacha_roundtrip (key nonce pt aad : List ℕ)
    (hk : key.length = 32) (hn : nonce.length = 12) :
    chacha20poly1305Decrypt key nonce
      (chacha20poly1305Encrypt key nonce pt aad) aad = some pt := by
  have h := aead_roundtrip_aux (fun n => chachaKeystream key nonce 1 n)
    (fun ct => chachaTag key nonce aad ct) pt
    (fun n => chachaKeystream_length 1 n hk hn)
    (fun ct => chachaTag_length key nonce aad ct)
  simpa only [chacha20poly1305Encrypt, chacha20poly1305Decrypt] using h

theorem aesgcm_roundtrip (key nonce pt aad : List ℕ) :
    aesgcmDecrypt key nonce (aesgcmEncrypt key nonce pt aad) aad = some pt := by
  have h := aead_roundtrip_aux
    (fun n => aesCtrKeystream (expandKeyWords key)
      (gcmJ0 (aesHashKey (expandKeyWords key)) nonce) n)
    (fun ct => gcmTag (expandKeyWords key)
      (gcmJ0 (aesHashKey (expandKeyWords key)) nonce) aad ct) pt
    (fun n => aesCtrKeystream_length _ _ n)
    (fun ct => gcmTag_length _ _ aad ct)
  simpa only [aesgcmEncrypt, aesgcmDecrypt] using h

/- ---------------------------------------------------------------- -/
/- The claims.                                                      -/
/- ---------------------------------------------------------------- -/

/-- C1: for every plaintext, every 32-byte key and both cipher variants,
decrypting the adapter's output with the same key, the first 12 bytes of
the output as the nonce and the remaining bytes as ciphertext reproduces
the plaintext exactly. -/
theorem claim1_adapter_roundtrip (key nonce pt : List ℕ)
    (hkey : key.length = 32) (hnonce : nonce.length = 12) :
    aesgcmDecrypt key ((encrypt_aes_gcm key nonce pt).take 12)
      ((encrypt_aes_gcm key nonce pt).drop 12) [] = some pt ∧
    chacha20poly1305Decrypt key ((encrypt_chacha key nonce pt).take 12)
      ((encrypt_chacha key nonce pt).drop 12) [] = some pt := by
  constructor
  · rw [encrypt_aes_gcm, List.take_left' hnonce, List.drop_left' hnonce]
    exact aesgcm_roundtrip key nonce pt []
  · rw [encrypt_chacha, List.take_left' hnonce, List.drop_left' hnonce]
    exact chacha_roundtrip key nonce pt [] hkey hnonce

def keyW : List ℕ := (List.range 32).map (fun i => i + 1)

def nonceW : List ℕ := List.range 12

def ptW : List ℕ := [72, 101, 108, 108, 111]

theorem claim1_adapter_roundtrip_witness :
    keyW.length = 32 ∧ nonceW.length = 12 ∧
    (aesgcmDecrypt keyW ((encrypt_aes_gcm keyW nonceW ptW).take 12)
      ((encrypt_aes_gcm keyW nonceW ptW).drop 12) [] = some ptW ∧
     chacha20poly1305Decrypt keyW ((encrypt_chacha keyW nonceW ptW).take 12)
      ((encrypt_chacha keyW nonceW ptW).drop 12) [] = some ptW) :=
  ⟨by decide, by decide,
   claim1_adapter_roundtrip keyW nonceW ptW (by decide) (by decide)⟩

/-- C2: each adapter returns the 12-byte nonce followed by the primitive's
authenticated ciphertext (plaintext-length ciphertext plus 16-byte tag)
computed with no associated data. -/
theorem claim2_adapter_structure (key nonce pt : List ℕ)
    (hkey : key.length = 32) (hnonce : nonce.length = 12) :
    encrypt_aes_gcm key nonce pt = nonce ++ aesgcmEncrypt key nonce pt [] ∧
    (encrypt_aes_gcm key nonce pt).take 12 = nonce ∧
    (aesgcmEncrypt key nonce pt []).length = pt.length + 16 ∧
    encrypt_chacha key nonce pt =
      nonce ++ chacha20poly1305Encrypt key nonce pt [] ∧
    (encrypt_chacha key nonce pt).take 12 = nonce ∧
    (chacha20poly1305Encrypt key nonce pt []).length = pt.length + 16 := by
  refine ⟨rfl, ?_, ?_, rfl, ?_, ?_⟩
  · rw [encrypt_aes_gcm, List.take_left' hnonce]
  · simp [aesgcmEncrypt, List.length_append, List.length_zipWith,
      aesCtrKeystream_length, gcmTag_length]
  · rw [encrypt_chacha, List.take_left' hnonce]
  · simp [chacha20poly1305Encrypt, List.length_append, List.length_zipWith,
      chachaKeystream_length 1 pt.length hkey hnonce, chachaTag_length]

theorem claim2_adapter_structure_witness :
    keyW.length = 32 ∧ nonceW.length = 12 ∧
    (encrypt_aes_gcm keyW nonceW ptW =
      nonceW ++ aesgcmEncrypt keyW nonceW ptW [] ∧
    (encrypt_aes_gcm keyW nonceW ptW).take 12 = nonceW ∧
    (aesgcmEncrypt keyW nonceW ptW []).length = ptW.length + 16 ∧
    encrypt_chacha keyW nonceW ptW =
      nonceW ++ chacha20poly1305Encrypt keyW nonceW ptW [] ∧
    (encrypt_chacha keyW nonceW ptW).take 12 = nonceW ∧
    (chacha20poly1305Encrypt keyW nonceW ptW []).length = ptW.length + 16) :=
  ⟨by decide, by decide,
   claim2_adapter_structure keyW nonceW ptW (by decide) (by decide)⟩

/-- C3: the derived size label is "10MB" within 1 of 10 MB, "100MB" within
5 of 100, "500MB" within 20 of 500, "1GB" within 100 of 1024, and the
file's base name otherwise; in particular 10485760 bytes gives "10MB",
104857600 gives "100MB", 1073741824 gives "1GB" and 7000000 falls back to
the file's name. -/
theorem claim3_size_label (n : ℕ) (path : String) :
    (|(n : ℚ) / (1024 * 1024) - 10| < 1 → size_label n path = "10MB") ∧
    (|(n : ℚ) / (1024 * 1024) - 100| < 5 → size_label n path = "100MB") ∧
    (|(n : ℚ) / (1024 * 1024) - 500| < 20 → size_label n path = "500MB") ∧
    (|(n : ℚ) / (1024 * 1024) - 1024| < 100 → size_label n path = "1GB") ∧
    (¬ |(n : ℚ) / (1024 * 1024) - 10| < 1 →
      ¬ |(n : ℚ) / (1024 * 1024) - 100| < 5 →
      ¬ |(n : ℚ) / (1024 * 1024) - 500| < 20 →
      ¬ |(n : ℚ) / (1024 * 1024) - 1024| < 100 →
      size_label n path = fileName path) ∧
    size_label 10485760 path = "10MB" ∧
    size_label 104857600 path = "100MB" ∧
    size_label 1073741824 path = "1GB" ∧
    size_label 7000000 path = fileName path := by
  refine ⟨?_, ?_, ?_, ?_, ?_, ?_, ?_, ?_, ?_⟩
  · intro h
    simp only [size_label]
    rw [if_pos h]
  · intro h
    have hm := abs_lt.mp h
    have h1 : ¬ |(n : ℚ) / (1024 * 1024) - 10| < 1 := by
      intro hc
      have hc2 := abs_lt.mp hc
      linarith [hm.1, hc2.2]
    simp only [size_label]
    rw [if_neg h1, if_pos h]
  · intro h
    have hm := abs_lt.mp h
    have h1 : ¬ |(n : ℚ) / (1024 * 1024) - 10| < 1 := by
      intro hc
      have hc2 := abs_lt.mp hc
      linarith [hm.1, hc2.2]
    have h2 : ¬ |(n : ℚ) / (1024 * 1024) - 100| < 5 := by
      intro hc
      have hc2 := abs_lt.mp hc
      linarith [hm.1, hc2.2]
    simp only [size_label]
    rw [if_neg h1, if_neg h2, if_pos h]
  · intro h
    have hm := abs_lt.mp h
    have h1 : ¬ |(n : ℚ) / (1024 * 1024) - 10| < 1 := by
      intro hc
      have hc2 := abs_lt.mp hc
      linarith [hm.1, hc2.2]
    have h2 : ¬ |(n : ℚ) / (1024 * 1024) - 100| < 5 := by
      intro hc
      have hc2 := abs_lt.mp hc
      linarith [hm.1, hc2.2]
    have h3 : ¬ |(n : ℚ) / (1024 * 1024) - 500| < 20 := by
      intro hc
      have hc2 := abs_lt.mp hc
      linarith [hm.1, hc2.2]
    simp only [size_label]
    rw [if_neg h1, if_neg h2, if_neg h3, if_pos h]
  · intro h1 h2 h3 h4
    simp only [size_label]
    rw [if_neg h1, if_neg h2, if_neg h3, if_neg h4]
  · simp only [size_label]
    rw [if_pos (by norm_num)]
  · simp only [size_label]
    rw [if_neg (by norm_num), if_pos (by norm_num)]
  · simp only [size_label]
    rw [if_neg (by rw [abs_lt]; norm_num), if_neg (by rw [abs_lt]; norm_num),
      if_neg (by rw [abs_lt]; norm_num), if_pos (by rw [abs_lt]; norm_num)]
  · simp only [size_label]
    rw [if_neg (by rw [abs_lt]; norm_num), if_neg (by rw [abs_lt]; norm_num),
      if_neg (by rw [abs_lt]; norm_num), if_neg (by rw [abs_lt]; norm_num)]

theorem claim3_size_label_witness :
    |((10485760 : ℕ) : ℚ) / (1024 * 1024) - 10| < 1 ∧
    size_label 10485760 "tes_10MB.bin" = "10MB" :=
  ⟨by norm_num, (claim3_size_label 10485760 "tes_10MB.bin").1 (by norm_num)⟩

/-- C4: every trial invocation across the whole matrix receives exactly the
per-cipher key drawn once before the loop — key_aes for "AES-GCM" trials,
key_cha for "ChaCha20-Poly1305" trials — never a trial-local key. -/
theorem claim4_single_key (files : List FileInfo) (iters : ℕ)
    (key_aes key_cha : List ℕ) :
    ∀ call ∈ benchmark_calls files iters key_aes key_cha,
      (call.cipher = "AES-GCM" ∨ call.cipher = "ChaCha20-Poly1305") ∧
      call.key = (if call.cipher = "AES-GCM" then key_aes else key_cha) := by
  intro call hc
  simp only [benchmark_calls, List.mem_flatMap, List.mem_map] at hc
  obtain ⟨f, hf, c, hcmem, j, hj, rfl⟩ := hc
  refine ⟨?_, rfl⟩
  simpa [ciphersList] using hcmem

def fileW : FileInfo := { path := "a.bin", sizeBytes := 1000 }

def keyW2 : List ℕ := List.replicate 32 9

theorem claim4_single_key_witness :
    ({ file := "a.bin", cipher := "AES-GCM", key := keyW, iter := 1 } : Call) ∈
      benchmark_calls [fileW] 1 keyW keyW2 ∧
    ((({ file := "a.bin", cipher := "AES-GCM", key := keyW, iter := 1 } :
        Call).cipher = "AES-GCM" ∨
      ({ file := "a.bin", cipher := "AES-GCM", key := keyW, iter := 1 } :
        Call).cipher = "ChaCha20-Poly1305") ∧
     ({ file := "a.bin", cipher := "AES-GCM", key := keyW, iter := 1 } :
        Call).key =
       (if ({ file := "a.bin", cipher := "AES-GCM", key := keyW, iter := 1 } :
          Call).cipher = "AES-GCM" then keyW else keyW2)) :=
  ⟨by decide, claim4_single_key [fileW] 1 keyW keyW2 _ (by decide)⟩

def ckW : Clocks :=
  { readStart := 0, readEnd := 1, encStart := 2, encEnd := 5,
    cpuStart := 0, cpuEnd := 2, tNow := 100 }

/-- C10: any cipher selector other than the two supported names makes
`run_single_encryption` raise `ValueError("Unsupported cipher")` after the
file read and before any output write, so no trial record and no
ciphertext file is produced. -/
theorem claim10_unsupported_cipher (file : FileInfo) (c : String)
    (key nonce pt : List ℕ) (outdir : String) (ck : Clocks)
    (h1 : c ≠ "AES-GCM") (h2 : c ≠ "ChaCha20-Poly1305") :
    run_single_encryption file c key nonce pt outdir ck =
      ([Ev.readFile file.path], Except.error "Unsupported cipher") := by
  unfold run_single_encryption
  rw [if_neg]
  simp [h1, h2]

theorem claim10_unsupported_cipher_witness :
    ("DES" ≠ "AES-GCM") ∧ ("DES" ≠ "ChaCha20-Poly1305") ∧
    run_single_encryption fileW "DES" keyW nonceW ptW "out" ckW =
      ([Ev.readFile fileW.path], Except.error "Unsupported cipher") :=
  ⟨by decide, by decide,
   claim10_unsupported_cipher fileW "DES" keyW nonceW ptW "out" ckW
     (by decide) (by decide)⟩

/-- C8: a successful trial's wall-time field equals the measured file-read
duration plus the measured encryption duration (the ciphertext write
happens outside every measured interval), and its CPU-time field is the
process-time delta bracketing only the adapter call. -/
theorem claim8_timing (file : FileInfo) (c : String) (key nonce pt : List ℕ)
    (outdir : String) (ck : Clocks) (r : TrialRecord)
    (h : (run_single_encryption file c key nonce pt outdir ck).2 =
      Except.ok r) :
    r.wall_time_sec = (ck.readEnd - ck.readStart) + (ck.encEnd - ck.encStart) ∧
    r.cpu_time_sec = ck.cpuEnd - ck.cpuStart := by
  unfold run_single_encryption at h
  by_cases hc : c = "AES-GCM" ∨ c = "ChaCha20-Poly1305"
  · rw [if_pos hc] at h
    simp only [Except.ok.injEq] at h
    rw [← h]
    constructor
    · show (ck.encEnd - ck.encStart) + (ck.readEnd - ck.readStart) = _
      ring
    · rfl
  · rw [if_neg hc] at h
    simp at h

def recW : TrialRecord :=
  { file := "a.bin", filesize_bytes := 1000, cipher := "AES-GCM",
    wall_time_sec := (ckW.encEnd - ckW.encStart) + (ckW.readEnd - ckW.readStart),
    cpu_time_sec := ckW.cpuEnd - ckW.cpuStart,
    output_file := "out/a.bin.AES-GCM.ct", timestamp := ckW.tNow,
    bytes_processed := 5, iter := 0 }

theorem claim8_timing_witness :
    (run_single_encryption fileW "AES-GCM" keyW nonceW ptW "out" ckW).2 =
      Except.ok recW ∧
    recW.wall_time_sec =
      (ckW.readEnd - ckW.readStart) + (ckW.encEnd - ckW.encStart) ∧
    recW.cpu_time_sec = ckW.cpuEnd - ckW.cpuStart :=
  have hEval : (run_single_encryption fileW "AES-GCM" keyW nonceW ptW
      "out" ckW).2 = Except.ok recW := rfl
  ⟨hEval, claim8_timing fileW "AES-GCM" keyW nonceW ptW "out" ckW recW hEval⟩

/-- C7: when some input path does not exist, `main` prints every missing
path and exits non-zero before anything else — the output directory is
never created and no trial runs. -/
theorem claim7_missing_files (fileArgs : List String) (iters : ℕ)
    (outdir : String) (fsExists : String → Bool) (m : String)
    (hm : m ∈ fileArgs) (hmiss : fsExists m = false) :
    Act.exitNonzero ∈ main_model fileArgs iters outdir fsExists ∧
    (∀ p ∈ fileArgs, fsExists p = false →
      Act.printMissing p ∈ main_model fileArgs iters outdir fsExists) ∧
    (∀ d, Act.mkdirOut d ∉ main_model fileArgs iters outdir fsExists) ∧
    (∀ f c i, Act.runTrial f c i ∉ main_model fileArgs iters outdir fsExists) := by
  have hne : (fileArgs.filter fun f => !(fsExists f)) ≠ [] := by
    intro h0
    have hmem : m ∈ fileArgs.filter fun f => !(fsExists f) := by
      rw [List.mem_filter]
      exact ⟨hm, by simp [hmiss]⟩
    rw [h0] at hmem
    exact List.not_mem_nil m hmem
  have hmain : main_model fileArgs iters outdir fsExists =
      ((fileArgs.filter fun f => !(fsExists f)).map Act.printMissing) ++
        [Act.exitNonzero] := by
    unfold main_model
    rw [if_neg]
    rw [List.isEmpty_iff]
    exact hne
  rw [hmain]
  refine ⟨by simp, ?_, ?_, ?_⟩
  · intro p hp hpmiss
    rw [List.mem_append, List.mem_map]
    exact Or.inl ⟨p, List.mem_filter.mpr ⟨hp, by simp [hpmiss]⟩, rfl⟩
  · intro d hd
    rw [List.mem_append] at hd
    rcases hd with hd | hd
    · rw [List.mem_map] at hd
      obtain ⟨x, _, hx⟩ := hd
      exact absurd hx (by simp)
    · simp at hd
  · intro f c i hd
    rw [List.mem_append] at hd
    rcases hd with hd | hd
    · rw [List.mem_map] at hd
      obtain ⟨x, _, hx⟩ := hd
      exact absurd hx (by simp)
    · simp at hd

theorem claim7_missing_files_witness :
    ("ghost.bin" ∈ ["ghost.bin"]) ∧ ((fun _ => false) "ghost.bin" = false) ∧
    (Act.exitNonzero ∈ main_model ["ghost.bin"] 10 "out" (fun _ => false) ∧
    (∀ p ∈ ["ghost.bin"], (fun _ => false) p = false →
      Act.printMissing p ∈ main_model ["ghost.bin"] 10 "out" (fun _ => false)) ∧
    (∀ d, Act.mkdirOut d ∉ main_model ["ghost.bin"] 10 "out" (fun _ => false)) ∧
    (∀ f c i, Act.runTrial f c i ∉
      main_model ["ghost.bin"] 10 "out" (fun _ => false))) :=
  ⟨by decide, rfl,
   claim7_missing_files ["ghost.bin"] 10 "out" (fun _ => false) "ghost.bin"
     (by decide) rfl⟩

/-- Closed form of one loop-body pass for a supported cipher name. -/
theorem trialOutcome_eq (env : Env) (f : FileInfo) (c : String) (i : ℕ)
    (key : List ℕ) (outdir : String)
    (hc : c = "AES-GCM" ∨ c = "ChaCha20-Poly1305") :
    trialOutcome env f c i key outdir =
      if env.fails f.path c i then none
      else some
        { file := f.path, filesize_bytes := f.sizeBytes, cipher := c,
          wall_time_sec := ((env.clocks f.path c i).encEnd -
            (env.clocks f.path c i).encStart) +
            ((env.clocks f.path c i).readEnd -
              (env.clocks f.path c i).readStart),
          cpu_time_sec := (env.clocks f.path c i).cpuEnd -
            (env.clocks f.path c i).cpuStart,
          output_file := outdir ++ "/" ++ fileName f.path ++ "." ++
            removeSpaces c ++ ".ct",
          timestamp := (env.clocks f.path c i).tNow,
          bytes_processed := (env.content f.path).length, iter := i } := by
  unfold trialOutcome run_single_encryption
  rw [if_pos hc]

def envW : Env :=
  { content := fun _ => ptW
    nonce := fun _ _ _ => List.range 12
    clocks := fun _ _ _ => ckW
    fails := fun _ _ _ => false
    removeFails := fun _ => false }

/-- C9 counterexample: one input file, two iterations, retention requested,
no failures — four trials complete but only two ciphertext files exist on
disk (one per (file, cipher) pair), not one per completed trial. -/
theorem claim9_counterexample :
    (benchmark_rows [fileW] 2 "out" envW keyW keyW2).length = 4 ∧
    (benchmark_disk (benchmark_rows [fileW] 2 "out" envW keyW keyW2)
      true envW).length = 2 ∧
    (benchmark_disk (benchmark_rows [fileW] 2 "out" envW keyW keyW2)
      true envW).length ≠
      (benchmark_rows [fileW] 2 "out" envW keyW keyW2).length := by
  refine ⟨by decide, by decide, by decide⟩

/-- C9 (amended): each completed trial writes its ciphertext to the path
combining the source file's base name and the cipher identifier — with no
iteration index, so iterations of one (file, cipher) pair overwrite one
file and what remains with retention is one file per distinct output path;
with default retention every distinct output path is attempted to be
removed and exactly the paths whose removal fails remain, failures being
ignored. -/
theorem claim9_ciphertext_files (files : List FileInfo) (iters : ℕ)
    (outdir : String) (env : Env) (key_aes key_cha : List ℕ) :
    (∀ r ∈ benchmark_rows files iters outdir env key_aes key_cha,
      r.output_file = outdir ++ "/" ++ fileName r.file ++ "." ++
        removeSpaces r.cipher ++ ".ct") ∧
    benchmark_disk (benchmark_rows files iters outdir env key_aes key_cha)
      true env =
      ((benchmark_rows files iters outdir env key_aes key_cha).map
        (·.output_file)).dedup ∧
    ((∀ p, env.removeFails p = false) →
      benchmark_disk (benchmark_rows files iters outdir env key_aes key_cha)
        false env = []) ∧
    benchmark_disk (benchmark_rows files iters outdir env key_aes key_cha)
      false env =
      (((benchmark_rows files iters outdir env key_aes key_cha).map
        (·.output_file)).dedup).filter (fun p => env.removeFails p) := by
  refine ⟨?_, rfl, ?_, rfl⟩
  · intro r hr
    simp only [benchmark_rows, List.mem_flatMap, List.mem_filterMap] at hr
    obtain ⟨f, hf, c, hcmem, j, hj, hsome⟩ := hr
    have hc : c = "AES-GCM" ∨ c = "ChaCha20-Poly1305" := by
      simpa [ciphersList] using hcmem
    rw [trialOutcome_eq env f c (j + 1) _ outdir hc] at hsome
    by_cases hfail : env.fails f.path c (j + 1)
    · rw [if_pos hfail] at hsome
      cases hsome
    · rw [if_neg hfail] at hsome
      injection hsome with hsome
      rw [← hsome]
  · intro h
    show ((benchmark_rows files iters outdir env key_aes key_cha).map
      (·.output_file)).dedup.filter (fun p => env.removeFails p) = []
    rw [List.filter_eq_nil_iff]
    intro p _
    simp [h p]

theorem claim9_ciphertext_files_witness :
    envW.removeFails "out/a.bin.AES-GCM.ct" = false ∧
    benchmark_disk (benchmark_rows [fileW] 2 "out" envW keyW keyW2)
      false envW = [] :=
  ⟨rfl,
   (claim9_ciphertext_files [fileW] 2 "out" envW keyW keyW2).2.2.1
     (fun _ => rfl)⟩

theorem filterMap_if {α β : Type} (p : α → Bool) (g : α → β) :
    ∀ l : List α,
      (l.filterMap fun x => if p x then some (g x) else none) =
        (l.filter p).map g
  | [] => rfl
  | a :: l => by
      by_cases h : p a <;>
        simp [List.filterMap_cons, List.filter_cons, h, filterMap_if p g l]

/-- Rows of one (file, cipher) loop cell never match the filter for a
different (file path, cipher) identity. -/
theorem cell_filter_ne (env : Env) (outdir : String) (f : FileInfo)
    (c : String) (fp cp : String) (iters : ℕ) (key : List ℕ)
    (hc : c = "AES-GCM" ∨ c = "ChaCha20-Poly1305")
    (hne : f.path ≠ fp ∨ c ≠ cp) :
    ((List.range iters).filterMap fun j =>
      trialOutcome env f c (j + 1) key outdir).filter
      (fun r => r.file == fp && r.cipher == cp) = [] := by
  rw [List.filter_eq_nil_iff]
  intro r hr
  rw [List.mem_filterMap] at hr
  obtain ⟨j, hj, hsome⟩ := hr
  rw [trialOutcome_eq env f c (j + 1) key outdir hc] at hsome
  by_cases hfail : env.fails f.path c (j + 1)
  · rw [if_pos hfail] at hsome
    cases hsome
  · rw [if_neg hfail] at hsome
    injection hsome with hsome
    rw [← hsome]
    rcases hne with h | h <;> simp [h]

/-- Rows of the matching (file, cipher) loop cell all pass the filter. -/
theorem cell_filter_self (env : Env) (outdir : String) (f : FileInfo)
    (c : String) (iters : ℕ) (key : List ℕ)
    (hc : c = "AES-GCM" ∨ c = "ChaCha20-Poly1305") :
    ((List.range iters).filterMap fun j =>
      trialOutcome env f c (j + 1) key outdir).filter
      (fun r => r.file == f.path && r.cipher == c) =
      (List.range iters).filterMap fun j =>
        trialOutcome env f c (j + 1) key outdir := by
  rw [List.filter_eq_self]
  intro r hr
  rw [List.mem_filterMap] at hr
  obtain ⟨j, hj, hsome⟩ := hr
  rw [trialOutcome_eq env f c (j + 1) key outdir hc] at hsome
  by_cases hfail : env.fails f.path c (j + 1)
  · rw [if_pos hfail] at hsome
    cases hsome
  · rw [if_neg hfail] at hsome
    injection hsome with hsome
    rw [← hsome]
    simp

/-- Rows coming from files other than `fp` never pass the filter. -/
theorem rows_filter_nil (rest : List FileInfo) (iters : ℕ) (outdir : String)
    (env : Env) (kA kC : List ℕ) (fp cp : String)
    (hout : ∀ f' ∈ rest, f'.path ≠ fp) :
    (benchmark_rows rest iters outdir env kA kC).filter
      (fun r => r.file == fp && r.cipher == cp) = [] := by
  rw [List.filter_eq_nil_iff]
  intro r hr
  simp only [benchmark_rows, List.mem_flatMap, List.mem_filterMap] at hr
  obtain ⟨f', hf', c', hcmem, j, hj, hsome⟩ := hr
  have hc : c' = "AES-GCM" ∨ c' = "ChaCha20-Poly1305" := by
    simpa [ciphersList] using hcmem
  rw [trialOutcome_eq env f' c' (j + 1) _ outdir hc] at hsome
  by_cases hfail : env.fails f'.path c' (j + 1)
  · rw [if_pos hfail] at hsome
    cases hsome
  · rw [if_neg hfail] at hsome
    injection hsome with hsome
    rw [← hsome]
    simp [hout f' hf']

/-- The raw rows matching a pair (f, c) of the matrix are exactly the rows
of that pair's own loop cell. -/
theorem rows_filter_eq (files : List FileInfo) (iters : ℕ) (outdir : String)
    (env : Env) (kA kC : List ℕ) (f : FileInfo) (c : String)
    (hf : f ∈ files) (hc : c ∈ ciphersList)
    (hnd : (files.map (·.path)).Nodup) :
    (benchmark_rows files iters outdir env kA kC).filter
      (fun r => r.file == f.path && r.cipher == c) =
      (List.range iters).filterMap fun j =>
        trialOutcome env f c (j + 1) (pickKey c kA kC) outdir := by
  obtain ⟨l1, l2, rfl⟩ := List.append_of_mem hf
  have hnd' := hnd
  rw [List.map_append, List.map_cons, List.nodup_append] at hnd'
  obtain ⟨hnd1, hnd2, hdisj⟩ := hnd'
  have h1 : ∀ f' ∈ l1, f'.path ≠ f.path := by
    intro f' hf' heq
    exact hdisj (List.mem_map_of_mem _ hf') (heq ▸ List.mem_cons_self _ _)
  have h2 : ∀ f' ∈ l2, f'.path ≠ f.path := by
    intro f' hf' heq
    rw [List.nodup_cons] at hnd2
    exact hnd2.1 (heq ▸ List.mem_map_of_mem _ hf')
  have hcsup : c = "AES-GCM" ∨ c = "ChaCha20-Poly1305" := by
    simpa [ciphersList] using hc
  have hrows : benchmark_rows (l1 ++ f :: l2) iters outdir env kA kC =
      benchmark_rows l1 iters outdir env kA kC ++
      ((ciphersList.flatMap fun c' =>
        (List.range iters).filterMap fun j =>
          trialOutcome env f c' (j + 1) (pickKey c' kA kC) outdir) ++
        benchmark_rows l2 iters outdir env kA kC) := by
    simp [benchmark_rows, List.flatMap_append, List.flatMap_cons]
  rw [hrows, List.filter_append, List.filter_append,
    rows_filter_nil l1 iters outdir env kA kC f.path c h1,
    rows_filter_nil l2 iters outdir env kA kC f.path c h2]
  simp only [ciphersList, List.flatMap_cons, List.flatMap_nil,
    List.filter_append, List.append_nil, List.nil_append]
  rcases hcsup with hcv | hcv
  · rw [hcv]
    rw [cell_filter_self env outdir f "AES-GCM" iters _ (Or.inl rfl)]
    rw [cell_filter_ne env outdir f "ChaCha20-Poly1305" f.path "AES-GCM"
      iters _ (Or.inr rfl) (Or.inr (by decide))]
    simp
  · rw [hcv]
    rw [cell_filter_ne env outdir f "AES-GCM" f.path "ChaCha20-Poly1305"
      iters _ (Or.inl rfl) (Or.inr (by decide))]
    rw [cell_filter_self env outdir f "ChaCha20-Poly1305" iters _
      (Or.inr rfl)]
    simp

/-- The iteration indices produced by one loop cell are exactly the
non-failing indices among 1..iters, in order. -/
theorem cell_map_iter (env : Env) (f : FileInfo) (c : String) (iters : ℕ)
    (key : List ℕ) (outdir : String)
    (hc : c = "AES-GCM" ∨ c = "ChaCha20-Poly1305") :
    (((List.range iters).filterMap fun j =>
      trialOutcome env f c (j + 1) key outdir).map (·.iter)) =
      (List.range' 1 iters).filter fun i => !(env.fails f.path c i) := by
  rw [List.map_filterMap]
  have hcong : ∀ j ∈ List.range iters,
      Option.map (·.iter) (trialOutcome env f c (j + 1) key outdir) =
        (if (fun j => !(env.fails f.path c (j + 1))) j
          then some ((fun j => j + 1) j) else none) := by
    intro j hj
    rw [trialOutcome_eq env f c (j + 1) key outdir hc]
    by_cases hfail : env.fails f.path c (j + 1) <;> simp [hfail]
  rw [List.filterMap_congr hcong]
  rw [filterMap_if (fun j => !(env.fails f.path c (j + 1))) (fun j => j + 1)]
  rw [List.range'_eq_map_range, List.filter_map]
  simp [Function.comp_def, Nat.add_comm]

/-- C5: the raw rows for a (file, cipher) pair carry exactly the iteration
indices of the non-raising trials of that pair, in order 1..N; when no
trial raises there are exactly N of them, indices 1..N; a raising trial is
simply omitted (the others, including the later ones, are all present) and
the indices never repeat. -/
theorem claim5_rows_per_pair (files : List FileInfo) (iters : ℕ)
    (outdir : String) (env : Env) (key_aes key_cha : List ℕ)
    (f : FileInfo) (c : String) (hf : f ∈ files) (hc : c ∈ ciphersList)
    (hnd : (files.map (·.path)).Nodup) :
    (((benchmark_rows files iters outdir env key_aes key_cha).filter
      (fun r => r.file == f.path && r.cipher == c)).map (·.iter)) =
      ((List.range' 1 iters).filter fun i => !(env.fails f.path c i)) ∧
    ((∀ i ∈ List.range' 1 iters, env.fails f.path c i = false) →
      ((benchmark_rows files iters outdir env key_aes key_cha).filter
        (fun r => r.file == f.path && r.cipher == c)).length = iters ∧
      (((benchmark_rows files iters outdir env key_aes key_cha).filter
        (fun r => r.file == f.path && r.cipher == c)).map (·.iter)) =
        List.range' 1 iters) ∧
    ((((benchmark_rows files iters outdir env key_aes key_cha).filter
      (fun r => r.file == f.path && r.cipher == c)).map (·.iter))).Nodup := by
  have hcsup : c = "AES-GCM" ∨ c = "ChaCha20-Poly1305" := by
    simpa [ciphersList] using hc
  have hmain := rows_filter_eq files iters outdir env key_aes key_cha f c
    hf hc hnd
  have hmap : (((benchmark_rows files iters outdir env key_aes
      key_cha).filter (fun r => r.file == f.path && r.cipher == c)).map
      (·.iter)) =
      (List.range' 1 iters).filter fun i => !(env.fails f.path c i) := by
    rw [hmain]
    exact cell_map_iter env f c iters _ outdir hcsup
  refine ⟨hmap, ?_, ?_⟩
  · intro hall
    have hfull : ((List.range' 1 iters).filter fun i =>
        !(env.fails f.path c i)) = List.range' 1 iters := by
      rw [List.filter_eq_self]
      intro i hi
      simp [hall i hi]
    have hlen := congrArg List.length hmap
    rw [List.length_map, hfull, List.length_range'] at hlen
    exact ⟨hlen, by rw [hmap, hfull]⟩
  · rw [hmap]
    exact (List.nodup_range' 1 iters).filter _

theorem claim5_rows_per_pair_witness :
    (fileW ∈ [fileW]) ∧ ("AES-GCM" ∈ ciphersList) ∧
    (([fileW].map (·.path)).Nodup) ∧
    ((((benchmark_rows [fileW] 2 "out" envW keyW keyW2).filter
      (fun r => r.file == fileW.path && r.cipher == "AES-GCM")).map
      (·.iter)) =
      ((List.range' 1 2).filter fun i =>
        !(envW.fails fileW.path "AES-GCM" i)) ∧
    ((∀ i ∈ List.range' 1 2, envW.fails fileW.path "AES-GCM" i = false) →
      ((benchmark_rows [fileW] 2 "out" envW keyW keyW2).filter
        (fun r => r.file == fileW.path && r.cipher == "AES-GCM")).length = 2 ∧
      (((benchmark_rows [fileW] 2 "out" envW keyW keyW2).filter
        (fun r => r.file == fileW.path && r.cipher == "AES-GCM")).map
        (·.iter)) = List.range' 1 2) ∧
    ((((benchmark_rows [fileW] 2 "out" envW keyW keyW2).filter
      (fun r => r.file == fileW.path && r.cipher == "AES-GCM")).map
      (·.iter))).Nodup) :=
  ⟨by decide, by decide, by decide,
   claim5_rows_per_pair [fileW] 2 "out" envW keyW keyW2 fileW "AES-GCM"
     (by decide) (by decide) (by decide)⟩

theorem size_label_10MB (p : String) : size_label 10485760 p = "10MB" := by
  simp only [size_label]
  rw [if_pos (by norm_num)]

def rec123 (w : ℚ) : TrialRecord :=
  { file := "tes_10MB.bin", filesize_bytes := 10485760, cipher := "AES-GCM",
    wall_time_sec := w, cpu_time_sec := w,
    output_file := "out/tes_10MB.bin.AES-GCM.ct", timestamp := 0,
    bytes_processed := 10485760, iter := 1 }

def rows123 : List TrialRecord := [rec123 1, rec123 2, rec123 3]

/-- C6: the reported group statistics are the arithmetic mean and the
sample (ddof = 1) standard deviation of the group's values: wall times
[1, 2, 3] give mean 2 and standard deviation 1, and a group with exactly
one run reports a missing standard deviation rather than zero. -/
theorem claim6_group_stats :
    groupWallTimes rows123 "10MB" "AES-GCM" = [1, 2, 3] ∧
    pdMean (groupWallTimes rows123 "10MB" "AES-GCM") = some 2 ∧
    (pdSampleVar (groupWallTimes rows123 "10MB" "AES-GCM")).map
      (fun v => Real.sqrt (v : ℝ)) = some 1 ∧
    (∀ r : TrialRecord,
      groupWallTimes [r] (size_label r.filesize_bytes r.file) r.cipher =
        [r.wall_time_sec] ∧
      pdSampleVar (groupWallTimes [r]
        (size_label r.filesize_bytes r.file) r.cipher) = none) := by
  have hgrp : groupWallTimes rows123 "10MB" "AES-GCM" = [1, 2, 3] := by
    simp [groupWallTimes, rows123, rec123, size_label_10MB]
  have hvar : pdSampleVar (groupWallTimes rows123 "10MB" "AES-GCM") =
      some 1 := by
    rw [hgrp]
    norm_num [pdSampleVar]
  refine ⟨hgrp, ?_, ?_, ?_⟩
  · rw [hgrp]
    norm_num [pdMean]
  · rw [hvar]
    simp
  · intro r
    have hone : groupWallTimes [r]
        (size_label r.filesize_bytes r.file) r.cipher = [r.wall_time_sec] := by
      simp [groupWallTimes]
    exact ⟨hone, by rw [hone]; simp [pdSampleVar]⟩
